import Mathlib

/-!
Shallow embedding of the core of `app.py` (Z.ai2api proxy):
the credential `TokenPool`, the stream event parser (`response.parse`),
the phase-aware stream normalizer (`response.format`) and the
`RequestMetrics` recorder, together with theorems settling the frozen
claims about them.

Conventions of the embedding:
* timestamps (`datetime.now()`) are explicit `Int` parameters; the Python
  expression `(now - disabled_at).total_seconds() < COOLDOWN` becomes
  `now - d < cooldown` on `Int`;
* Python dicts keyed by strings become total functions `String → Option _`
  (`none` = key absent), so `dict.get(k, 0)` is `(f k).getD 0`, `pop` sets
  `none`, and `setdefault` fills `none` slots;
* the module-level constant `TOKEN_POOL_RESET_FAILURES` (cooldown seconds)
  is threaded as an explicit `cooldown : Int` argument.
-/

namespace ZaiApi

/-- `TokenPool` state (`app.py`, `TokenPool.__init__`): token list, rotation
index, effective failure threshold (already `max(1, failure_threshold)`),
and the health dicts `_failures`, `_successes`, `_disabled`. The derived
`_token_ids` map is not stored: it is always the keyed hash of the current
list and no pool operation reads it back into pool behaviour. -/
structure TokenPool where
  tokens : List String
  index : Nat
  threshold : Nat
  failures : String → Option Nat
  successes : String → Option Nat
  disabled : String → Option Int

/-- The deduplication loop at the top of `TokenPool.update`: keep the first
occurrence of each truthy (non-empty) token, preserving order. -/
def pdedup (ts : List String) : List String :=
  go ts []
where
  go : List String → List String → List String
  | [], _ => []
  | t :: rest, seen =>
    if t ≠ "" ∧ t ∉ seen then t :: go rest (t :: seen)
    else go rest seen

/-- Availability test for one token's `_disabled` entry
(`TokenPool._available_tokens`): available when never disabled or when the
cooldown has elapsed (`now - disabled_at < cooldown` means still cooling). -/
def availOK (cooldown now : Int) : Option Int → Bool
  | none => true
  | some d => decide (cooldown ≤ now - d)

/-- `TokenPool._available_tokens`: the tokens whose cooldown (if any) has
elapsed at time `now`. -/
def availableTokens (cooldown now : Int) (p : TokenPool) : List String :=
  p.tokens.filter (fun t => availOK cooldown now (p.disabled t))

/-- `TokenPool.get`: compute the available subset; if empty, clear all
cooldowns and recompute once; if still empty return `none`; otherwise
return the token at `index % len(available)` and advance the index
(mod the available length). Returns the result and the updated pool.
The `getD` default is unreachable: the index is reduced mod the length of
a non-empty list, exactly the situation in which Python list indexing
cannot raise. -/
def TokenPool.get (cooldown now : Int) (p : TokenPool) : Option String × TokenPool :=
  let avail0 := availableTokens cooldown now p
  let p1 := if avail0 = [] then { p with disabled := fun _ => none } else p
  let avail := if avail0 = [] then availableTokens cooldown now p1 else avail0
  if avail = [] then (none, p1)
  else
    (some (avail.getD (p1.index % avail.length) ""),
     { p1 with index := (p1.index + 1) % avail.length })

/-- `TokenPool.mark_success`: no-op for falsy or unknown tokens; otherwise
increment the success count and drop the failure count and cooldown. -/
def TokenPool.markSuccess (p : TokenPool) (token : String) : TokenPool :=
  if token = "" ∨ token ∉ p.tokens then p
  else
    { p with
      successes := fun t => if t = token then some ((p.successes token).getD 0 + 1) else p.successes t,
      failures := fun t => if t = token then none else p.failures t,
      disabled := fun t => if t = token then none else p.disabled t }

/-- `TokenPool.mark_failure`: no-op for falsy or unknown tokens; otherwise
increment the failure count (the `_successes.setdefault(token, 0)` call is
invisible through `getD 0` reads but kept for dict-key fidelity) and, when
the count reaches the threshold, set `disabled_at := now`. -/
def TokenPool.markFailure (now : Int) (p : TokenPool) (token : String) : TokenPool :=
  if token = "" ∨ token ∉ p.tokens then p
  else
    let count := (p.failures token).getD 0 + 1
    { p with
      failures := fun t => if t = token then some count else p.failures t,
      successes := fun t => if t = token then some ((p.successes token).getD 0) else p.successes t,
      disabled :=
        if p.threshold ≤ count then
          fun t => if t = token then some now else p.disabled t
        else p.disabled }

/-- `TokenPool.update`: replace the pool with the deduplicated input, reset
the index to 0, prune health entries whose token left the pool (the Python
loop iterates over `_failures` keys and pops from all three dicts), and
`setdefault` the counters of every present token to 0. -/
def TokenPool.update (p : TokenPool) (ts : List String) : TokenPool :=
  let unique := pdedup ts
  let failures1 : String → Option Nat := fun t =>
    if (p.failures t).isSome ∧ t ∉ unique then none else p.failures t
  let successes1 : String → Option Nat := fun t =>
    if (p.failures t).isSome ∧ t ∉ unique then none else p.successes t
  let disabled1 : String → Option Int := fun t =>
    if (p.failures t).isSome ∧ t ∉ unique then none else p.disabled t
  { tokens := unique
    index := 0
    threshold := p.threshold
    failures := fun t => if t ∈ unique ∧ failures1 t = none then some 0 else failures1 t
    successes := fun t => if t ∈ unique ∧ successes1 t = none then some 0 else successes1 t
    disabled := disabled1 }

/-- `TokenPool.__init__`: empty health state, effective threshold
`max(1, failure_threshold)`, then `update(tokens)` when the initial list is
truthy (non-empty). -/
def TokenPool.init (tokens : List String) (failureThreshold : Int) : TokenPool :=
  let p0 : TokenPool :=
    { tokens := []
      index := 0
      threshold := (max 1 failureThreshold).toNat
      failures := fun _ => none
      successes := fun _ => none
      disabled := fun _ => none }
  if tokens = [] then p0 else p0.update tokens

/-- A run of consecutive `mark_failure(token)` calls at the given times. -/
def markFailureSeq (p : TokenPool) (token : String) (times : List Int) : TokenPool :=
  times.foldl (fun q t => TokenPool.markFailure t q token) p

/-- A run of consecutive `get()` calls at the given times, collecting the
returned credentials in order. -/
def getSeq (cooldown : Int) (times : List Int) (p : TokenPool) : List (Option String) × TokenPool :=
  match times with
  | [] => ([], p)
  | t :: ts =>
    let r := TokenPool.get cooldown t p
    let rest := getSeq cooldown ts r.2
    (r.1 :: rest.1, rest.2)

/-- `response.parse` (`app.py`): iterate the stream lines; skip falsy lines
and lines without the `data: ` prefix; decode the remainder after the
6-byte prefix, silently skipping lines that fail to decode. The JSON
decoder (`json.loads`, library code) is an explicit parameter returning
`none` on failure. Totality of this definition is the embedding of
"never raises". -/
def parseStream {α : Type} (dec : String → Option α) : List String → List α
  | [] => []
  | l :: ls =>
    if l = "" ∨ ¬ (String.startsWith l "data: ") then parseStream dec ls
    else
      match dec (String.drop l 6) with
      | none => parseStream dec ls
      | some j => j :: parseStream dec ls

/-! ### String machinery for the normalizer's regex substitutions

Each `re.sub` pattern used by `response.format` is embedded by a matcher
that, at a given position in the text, either fails or returns the
replacement together with the rest of the text after the matched span.
`gsub` scans left to right exactly like `re.sub`: on failure it advances
one character, on success it appends the replacement and continues after
the match (never rescanning the replacement). All the matchers consume at
least one character, so fuel `length + 1` never runs out. -/

/-- Python `\s` (the whitespace class stripped by `str.strip`). -/
def pyWs (ch : Char) : Bool :=
  ch = ' ' ∨ ch = '\t' ∨ ch = '\n' ∨ ch = '\r' ∨ ch = '\x0b' ∨ ch = '\x0c'

/-- Substring test (`pat in s` in Python). -/
def hasSubL (s pat : List Char) : Bool :=
  match s with
  | [] => pat.isEmpty
  | c :: rest => pat.isPrefixOf (c :: rest) || hasSubL rest pat

/-- Substring test on `String`. -/
def hasSub (s pat : String) : Bool := hasSubL s.data pat.data

/-- Fuelled left-to-right global substitution driver for `re.sub`. -/
def gsubAux (f : List Char → Option (List Char × List Char)) : Nat → List Char → List Char
  | 0, s => s
  | _ + 1, [] => []
  | fuel + 1, c :: rest =>
    match f (c :: rest) with
    | some (repl, rest2) => repl ++ gsubAux f fuel rest2
    | none => c :: gsubAux f fuel rest

/-- `re.sub(pattern, repl, s)` for a matcher `f` embedding the pattern. -/
def gsub (f : List Char → Option (List Char × List Char)) (s : String) : String :=
  String.mk (gsubAux f (s.data.length + 1) s.data)

/-- Consume a literal at the head of the text. -/
def dropLit? (lit s : List Char) : Option (List Char) :=
  if lit.isPrefixOf s then some (s.drop lit.length) else none

/-- `[^>]*>`: consume up to and including the first `>` (fails without one).
Greedy and non-greedy agree because the class excludes `>` itself. -/
def dropToGt? (s : List Char) : Option (List Char) :=
  let pre := s.takeWhile (fun ch => ch ≠ '>')
  if pre.length = s.length then none else some (s.drop (pre.length + 1))

/-- Index of the first occurrence of `pat` in `s`. -/
def findSubL (s pat : List Char) : Option Nat :=
  (List.range (s.length + 1)).find? (fun i => pat.isPrefixOf (s.drop i))

/-- Index of the last occurrence of `pat` in `s`. -/
def findLastSubL (s pat : List Char) : Option Nat :=
  (List.range (s.length + 1)).foldl
    (fun acc i => if pat.isPrefixOf (s.drop i) then some i else acc) none

/-- `(?s).*?pat`: consume through the first occurrence of `pat`. -/
def dropThroughFirst? (pat s : List Char) : Option (List Char) :=
  (findSubL s pat).map (fun i => s.drop (i + pat.length))

/-- `.*?pat` without DOTALL: consume through the first occurrence of `pat`
on the current line (`.` does not match a newline, and `pat` itself is
newline-free for every pattern embedded here). -/
def dropThroughFirstLine? (pat s : List Char) : Option (List Char) :=
  let line := s.takeWhile (fun ch => ch ≠ '\n')
  (findSubL line pat).map (fun i => s.drop (i + pat.length))

/-- `.*pat` without DOTALL, greedy: consume through the last occurrence of
`pat` on the current line. -/
def dropThroughLast? (pat s : List Char) : Option (List Char) :=
  let line := s.takeWhile (fun ch => ch ≠ '\n')
  (findLastSubL line pat).map (fun i => s.drop (i + pat.length))

/-- Matcher for a literal pattern (also `str.replace`, which scans left to
right over non-overlapping occurrences exactly like `gsub`). -/
def mLit (pat repl : List Char) (s : List Char) : Option (List Char × List Char) :=
  (dropLit? pat s).map (fun rest => (repl, rest))

/-- `str.replace(pat, repl)` / `re.sub` of a literal pattern. -/
def replaceAll (pat repl : String) (s : String) : String :=
  gsub (mLit pat.data repl.data) s

/-- `(?s)<details[^>]*?>.*?</details>` (removal of fully nested collapsible
blocks). A leading `\n*` is absent in the source pattern. -/
def mDetailsBlock (s : List Char) : Option (List Char × List Char) := do
  let s1 ← dropLit? ("<details".data) s
  let s2 ← dropToGt? s1
  let s3 ← dropThroughFirst? ("</details>".data) s2
  pure ([], s3)

/-- `\n*<summary>.*?</summary>\n*` with replacement `repl`. The leading
greedy `\n*` can only succeed by absorbing the entire newline run in front
of `<summary>` (a shorter run would put `<` where a `\n` stands), and the
non-DOTALL `.*?` keeps the span on one line. -/
def mSummary (repl : List Char) (s : List Char) : Option (List Char × List Char) := do
  let rest := s.dropWhile (fun ch => ch = '\n')
  let s1 ← dropLit? ("<summary>".data) rest
  let s2 ← dropThroughFirstLine? ("</summary>".data) s1
  pure (repl, s2.dropWhile (fun ch => ch = '\n'))

/-- `<details[^>]*>\n*` replaced by the canonical open marker. -/
def mDetailsOpen (s : List Char) : Option (List Char × List Char) := do
  let s1 ← dropLit? ("<details".data) s
  let s2 ← dropToGt? s1
  pure ("<reasoning>\n\n".data, s2.dropWhile (fun ch => ch = '\n'))

/-- `\n*</details>` replaced by the canonical close marker. -/
def mDetailsClose (s : List Char) : Option (List Char × List Char) := do
  let rest := s.dropWhile (fun ch => ch = '\n')
  let s1 ← dropLit? ("</details>".data) rest
  pure ("\n\n</reasoning>".data, s1)

/-- `\n>\s?` → `\n` (quote-style line-head normalization). -/
def mQuote (s : List Char) : Option (List Char × List Char) :=
  match s with
  | '\n' :: '>' :: rest =>
    some ("\n".data,
      match rest with
      | ch :: rest2 => if pyWs ch then rest2 else ch :: rest2
      | [] => [])
  | _ => none

/-- `<reasoning>\n*` with replacement `repl`. -/
def mOpenNl (repl : List Char) (s : List Char) : Option (List Char × List Char) := do
  let s1 ← dropLit? ("<reasoning>".data) s
  pure (repl, s1.dropWhile (fun ch => ch = '\n'))

/-- `\n*</reasoning>` with replacement `repl`. -/
def mCloseNl (repl : List Char) (s : List Char) : Option (List Char × List Char) := do
  let rest := s.dropWhile (fun ch => ch = '\n')
  let s1 ← dropLit? ("</reasoning>".data) rest
  pure (repl, s1)

/-- The literal tail of the `glm_block` opening pattern
(`\x7b"type": "mcp", "data": \x7b"metadata": \x7b` — braces written as
escapes). -/
def glmOpenLit : String := "\x7b\"type\": \"mcp\", \"data\": \x7b\"metadata\": \x7b"

/-- `\n*<glm_block[^>]*>` followed by `glmOpenLit`, replaced by an opening
brace (tool-call wrapper excision). -/
def mGlmOpen (s : List Char) : Option (List Char × List Char) := do
  let rest := s.dropWhile (fun ch => ch = '\n')
  let s1 ← dropLit? ("<glm_block".data) rest
  let s2 ← dropToGt? s1
  let s3 ← dropLit? glmOpenLit.data s2
  pure ("\x7b".data, s3)

/-- `", "result": "".*</glm_block>` → empty (greedy, same line). -/
def mGlmResult (s : List Char) : Option (List Char × List Char) := do
  let s1 ← dropLit? ("\", \"result\": \"\"".data) s
  let s2 ← dropThroughLast? ("</glm_block>".data) s1
  pure ([], s2)

/-- `null, "display_result": "".*</glm_block>` → `"\x7d` (greedy, same
line; continuation capture for a reclassified tool-call chunk). -/
def mGlmDisplay (s : List Char) : Option (List Char × List Char) := do
  let s1 ← dropLit? ("null, \"display_result\": \"\"".data) s
  let s2 ← dropThroughLast? ("</glm_block>".data) s1
  pure ("\"\x7d".data, s2)

/-! ### The phase transition normalizer (`response.format`) -/

/-- Removal of fully nested `<details>` blocks. -/
def removeDetailsBlocks (s : String) : String := gsub mDetailsBlock s

/-- The chained literal `str.replace` calls dropping deprecated wrapper
tags (`</thinking>`, `<Full>`, `</Full>`), in source order. -/
def stripWrapperTags (s : String) : String :=
  replaceAll "</Full>" "" (replaceAll "<Full>" "" (replaceAll "</thinking>" "" s))

/-- Thinking-phase collapse of summary-marker lines into a double newline. -/
def collapseSummary (s : String) : String := gsub (mSummary ("\n\n".data)) s

/-- Deletion of summary-marker lines during rendering-mode substitution. -/
def deleteSummary (s : String) : String := gsub (mSummary []) s

/-- Rewrite of remaining `<details...>` openers into the canonical marker. -/
def subDetailsOpen (s : String) : String := gsub mDetailsOpen s

/-- Rewrite of remaining `</details>` closers into the canonical marker. -/
def subDetailsClose (s : String) : String := gsub mDetailsClose s

/-- Quote-style line-head normalization (`\n>\s?` → `\n`). -/
def subQuote (s : String) : String := gsub mQuote s

/-- Tool-call opening wrapper excision. -/
def subGlmOpen (s : String) : String := gsub mGlmOpen s

/-- Tool-call result-tail excision. -/
def subGlmResult (s : String) : String := gsub mGlmResult s

/-- Reclassified tool-call continuation excision. -/
def subGlmDisplay (s : String) : String := gsub mGlmDisplay s

/-- The canonicalization block of `response.format` (nested-block removal,
deprecated-tag stripping, thinking-phase summary collapse, then rewriting
of `<details>` markers into the canonical `<reasoning>` pair). -/
def canonicalize (phase : String) (c : String) : String :=
  let c1 := stripWrapperTags (removeDetailsBlocks c)
  let c2 := if phase = "thinking" then collapseSummary c1 else c1
  subDetailsClose (subDetailsOpen c2)

/-- `re.search(r"(?s)^(.*?</reasoning>)(.*)$", content)`: split at the
first canonical close marker into (before, after); `none` when the marker
is absent. -/
def splitReasoning (s : String) : Option (String × String) :=
  let pat := "</reasoning>".data
  (findSubL s.data pat).map (fun i =>
    (String.mk (s.data.take (i + pat.length)), String.mk (s.data.drop (i + pat.length))))

/-- Falsiness of `s.strip()` (Python whitespace). -/
def pyBlank (s : String) : Bool := s.data.all pyWs

/-- `s.lstrip('\n')`. -/
def lstripNl (s : String) : String := String.mk (s.data.dropWhile (fun ch => ch = '\n'))

/-- `re.search(r"(?s)<summary>.*?</summary>", s)`: the matched span, if
any. The leftmost match starts at the first `<summary>`; if no
`</summary>` follows it, no later start can succeed either. -/
def searchSummarySpan (s : String) : Option String :=
  match findSubL s.data ("<summary>".data) with
  | none => none
  | some i =>
    let t := s.data.drop (i + ("<summary>".data).length)
    match findSubL t ("</summary>".data) with
    | none => none
    | some j => some (String.mk ("<summary>".data ++ t.take j ++ "</summary>".data))

/-- Scanner for `re.search(r"duration=\"(\d+)\"", s)`: at each occurrence
of the literal head, a non-empty maximal digit run must be closed by a
quote, else the search restarts one character further. Returns the digit
capture. -/
def searchDurationL : List Char → Option (List Char)
  | [] => none
  | c :: rest =>
    match dropLit? ("duration=\"".data) (c :: rest) with
    | some s1 =>
      let digits := s1.takeWhile Char.isDigit
      if digits ≠ [] ∧ (s1.drop digits.length).head? = some '\"' then some digits
      else searchDurationL rest
    | none => searchDurationL rest

/-- The `(\d+)` capture of the duration search, as a string. -/
def searchDuration (s : String) : Option String :=
  (searchDurationL s.data).map String.mk

/-- The rendering-mode substitution arms of `response.format`, keyed by
`cfg.api.think`. `beforeSpan` is the `before` group captured by the
answer-phase split: the `details` arm reads it for answer-phase events, and
when the split never bound it the Python code raises `NameError`, embedded
as `.error ()`. The unknown-mode arm appends a blank line after the close
marker (the warning log is outside the data path). -/
def modeSubst (mode phase : String) (beforeSpan : Option String) (c : String) :
    Except Unit String :=
  if mode = "reasoning" then
    let c := if phase = "thinking" then subQuote c else c
    let c := deleteSummary c
    let c := gsub (mOpenNl []) c
    let c := gsub (mCloseNl []) c
    .ok c
  else if mode = "think" then
    let c := if phase = "thinking" then subQuote c else c
    let c := deleteSummary c
    let c := replaceAll "<reasoning>" "<think>" c
    let c := replaceAll "</reasoning>" "</think>" c
    .ok c
  else if mode = "strip" then
    let c := deleteSummary c
    let c := gsub (mOpenNl []) c
    let c := replaceAll "</reasoning>" "" c
    .ok c
  else if mode = "details" then
    let c := if phase = "thinking" then subQuote c else c
    let c := replaceAll "<reasoning>" "<details type=\"reasoning\" open><div>" c
    if phase = "answer" then
      match beforeSpan with
      | none => .error ()
      | some b =>
        let thoughts :=
          match searchSummarySpan b with
          | some sp => "\n\n" ++ sp
          | none =>
            match searchDuration b with
            | some dgs => "\n\n<summary>Thought for " ++ dgs ++ " seconds</summary>"
            | none => ""
        .ok (replaceAll "</reasoning>" ("</div>" ++ thoughts ++ "</details>") c)
    else .ok (replaceAll "</reasoning>" "</div></details>" c)
  else
    .ok (replaceAll "</reasoning>" "</reasoning>\n\n" c)

/-- The thinking-block extraction of `response.format`: triggered for
thinking-phase events, or answer-phase events whose text contains
`summary>`; canonicalizes, performs the answer-phase boundary splice
keyed on the previously recorded phase `bak`, then applies the
rendering-mode substitution. Untriggered events pass through unchanged. -/
def thinkTransform (mode bak phase : String) (c : String) : Except Unit String :=
  if phase = "thinking" ∨ (phase = "answer" ∧ hasSub c "summary>") then
    let ct := canonicalize phase c
    if phase = "answer" then
      match splitReasoning ct with
      | some (b, a) =>
        let c2 :=
          if ¬ pyBlank a then
            if bak = "thinking" then "\n\n</reasoning>\n\n" ++ lstripNl a
            else if bak = "answer" then ""
            else ct
          else "\n\n</reasoning>"
        modeSubst mode phase (some b) c2
      | none => modeSubst mode phase none ct
    else modeSubst mode phase none ct
  else .ok c

/-- A decoded record's fields as read by `response.format`:
`data.get("phase", "other")` is embedded by `phase?.getD "other"`, and the
primary/secondary text fields feed `delta_content or edit_content or ""`.
A missing or falsy outer `data` member is the `none` record. -/
structure RecordData where
  phase? : Option String
  deltaContent : String
  editContent : String

/-- `NormalizedDelta`: the three delta shapes `response.format` can emit.
The OpenAI/Anthropic payload spelling of the same tagged value is external
encoding and is not modelled. -/
inductive Delta where
  | reasoningContent (text : String)
  | contentDelta (text : String)
  | toolCallFragment (text : String)
deriving DecidableEq

/-- `repr(content)` as consumed by the output-shaping branch: only its
truthiness is read, and Python's repr of any string is non-empty because
of the added quotes; internal escaping is omitted as unobservable here. -/
def pyRepr (s : String) : String := "\x27" ++ s ++ "\x27"

/-- The output-shaping tail of `response.format`: reasoning delta for
thinking-phase events in `reasoning` mode, else tool-call fragment for
tool-call phase, else a content delta whenever `repr(content)` is truthy,
else nothing. -/
def dispatch (mode phase : String) (c : String) : Option Delta :=
  if phase = "thinking" ∧ mode = "reasoning" then some (.reasoningContent c)
  else if phase = "tool_call" then some (.toolCallFragment c)
  else if pyRepr c ≠ "" then some (.contentDelta c)
  else none

/-- The tool-call head of `response.format`: excise the wrapper on
tool-call events, and reclassify an `other` event as `tool_call` when the
previous phase was `tool_call` and the text mentions `glm_block`. Returns
the (possibly reclassified) phase and the adjusted text. -/
def toolCallAdjust (bak phase0 c0 : String) : String × String :=
  if phase0 = "tool_call" then (phase0, subGlmResult (subGlmOpen c0))
  else if phase0 = "other" ∧ bak = "tool_call" ∧ hasSub c0 "glm_block" then
    ("tool_call", subGlmDisplay c0)
  else (phase0, c0)

/-- `response.format`: one decoded record in, at most one delta out, with
the global `phaseBak` threaded explicitly (`bak` in, updated value out).
The rendering mode `cfg.api.think` is fixed at startup and passed as
`mode`. The `.error` result is the `NameError` escape of the `details`
arm, propagated unchanged (`Except.map`). -/
def format (mode bak : String) (rec? : Option RecordData) :
    Except Unit (Option Delta × String) :=
  match rec? with
  | none => .ok (none, bak)
  | some r =>
    let phase0 := r.phase?.getD "other"
    let c0 := if r.deltaContent ≠ "" then r.deltaContent else r.editContent
    if c0 = "" then .ok (none, bak)
    else
      let pc := toolCallAdjust bak phase0 c0
      (thinkTransform mode bak pc.1 pc.2).map (fun c2 => (dispatch mode pc.1 c2, pc.1))

/-- Modelled from the spec: the output-shaping dispatch as the spec words
it (C2) — reasoning delta for thinking in `reasoning` mode, else a content
delta when the transformed text is non-empty, else a tool-call fragment
for tool-call phase, else nothing. For refinement comparison with
`dispatch`. -/
def specDispatch (mode phase : String) (c : String) : Option Delta :=
  if mode = "reasoning" ∧ phase = "thinking" then some (.reasoningContent c)
  else if c ≠ "" then some (.contentDelta c)
  else if phase = "tool_call" then some (.toolCallFragment c)
  else none

/-! ### The metrics recorder (`RequestMetrics`) -/

/-- The `token_info` dict handed to `RequestMetrics.record`. -/
structure TokenInfo where
  source? : Option String
  token? : Option String

/-- One per-key entry of `_token_stats` (defaultdict slots start at
`success = 0, failure = 0, source = "unknown"`). -/
structure TokenStat where
  success : Nat
  failure : Nat
  source : String
  display : Option String
deriving DecidableEq

/-- The default slot of the `_token_stats` defaultdict. -/
def defaultStat : TokenStat := { success := 0, failure := 0, source := "unknown", display := none }

/-- One entry of the rolling `_recent_requests` ring. -/
structure MetricEntry where
  timestamp : String
  method : String
  path : String
  statusCode : Option Int
  durationMs : Int
  clientIp : String
  token : String
  error : Option String

/-- `RequestMetrics` state: totals, cumulative duration, the rolling ring
(newest first, capacity 100) and the per-key stats dict. -/
structure RequestMetrics where
  totalRequests : Nat
  successRequests : Nat
  failureRequests : Nat
  totalResponseTime : Rat
  recentRequests : List MetricEntry
  tokenStats : String → Option TokenStat

/-- `_token_display_from_id`. -/
def tokenDisplayFromId (tid : String) : String :=
  if tid = "" then "token" else "token:" ++ String.mk (tid.data.take 8)

/-- The token-resolution head of `RequestMetrics.record`: source, display
string and optional identity, with the keyed hash `_token_identifier`
passed as the abstract `ident` (HMAC-SHA256 is library code). -/
def tokenMeta (ident : String → String) (ti? : Option TokenInfo) :
    String × String × Option String :=
  let source := match ti? with | none => "none" | some ti => ti.source?.getD "none"
  let value? : Option String := match ti? with | none => none | some ti => ti.token?
  let falsyVal := match value? with | none => true | some v => v = ""
  if source = "anonymous" ∨ falsyVal = true then (source, "匿名 token", none)
  else if source = "pool" ∨ source = "static" then
    let tid := ident (value?.getD "")
    (source, tokenDisplayFromId tid, some tid)
  else (source, value?.getD "", none)

/-- The stats key: the credential identity when present, else the
synthetic `__source__` tag. -/
def metricKey (meta : String × String × Option String) : String :=
  match meta.2.2 with
  | some tid => tid
  | none => "__" ++ meta.1 ++ "__"

/-- Python `int()` truncation toward zero, for `int(duration * 1000)`. -/
def pyTrunc (q : Rat) : Int := if 0 ≤ q then q.floor else q.ceil

/-- The success classification of `RequestMetrics.record`:
`status_code is not None and 200 <= status_code < 400`. -/
def classifySuccess (statusCode : Option Int) : Bool :=
  match statusCode with
  | some s => decide (200 ≤ s ∧ s < 400)
  | none => false

/-- `RequestMetrics.record`: classify the outcome
(`status_code is not None and 200 <= status_code < 400`), bump totals and
the per-key counters, and push the new entry on the front of the
capacity-100 ring. `nowIso` stands for `datetime.now().isoformat()`. -/
def RequestMetrics.record (ident : String → String) (nowIso : String)
    (m : RequestMetrics) (method path : String) (statusCode : Option Int)
    (duration : Rat) (clientIp : String) (ti? : Option TokenInfo)
    (error? : Option String) : RequestMetrics :=
  let success := classifySuccess statusCode
  let meta := tokenMeta ident ti?
  let key := metricKey meta
  let old := (m.tokenStats key).getD defaultStat
  let stat1 :=
    if success then { old with success := old.success + 1 }
    else { old with failure := old.failure + 1 }
  let stat2 := { stat1 with source := meta.1 }
  let stat3 := if meta.2.1 ≠ "" then { stat2 with display := some meta.2.1 } else stat2
  let entry : MetricEntry :=
    { timestamp := nowIso
      method := method
      path := path
      statusCode := statusCode
      durationMs := pyTrunc (duration * 1000)
      clientIp := clientIp
      token := meta.2.1
      error := match error? with | some e => if e ≠ "" then some e else none | none => none }
  { totalRequests := m.totalRequests + 1
    successRequests := m.successRequests + (if success then 1 else 0)
    failureRequests := m.failureRequests + (if success then 0 else 1)
    totalResponseTime := m.totalResponseTime + duration
    recentRequests := (entry :: m.recentRequests).take 100
    tokenStats := fun k => if k = key then some stat3 else m.tokenStats k }

/-! ## Theorems -/

/-! ### Helper lemmas about `pdedup` and the pool operations -/

theorem pdedup_go_mem (ts : List String) :
    ∀ (seen : List String) (t : String),
      t ∈ pdedup.go ts seen ↔ t ∈ ts ∧ t ≠ "" ∧ t ∉ seen := by
  induction ts with
  | nil => intro seen t; simp [pdedup.go]
  | cons a rest ih =>
    intro seen t
    rw [pdedup.go]
    split_ifs with ha
    · by_cases hta : t = a
      · subst hta
        simp only [List.mem_cons, ih]
        tauto
      · simp [List.mem_cons, ih, hta]
    · by_cases hta : t = a
      · subst hta
        simp only [List.mem_cons, ih]
        tauto
      · simp [List.mem_cons, ih, hta]

theorem mem_pdedup (ts : List String) (t : String) :
    t ∈ pdedup ts ↔ t ∈ ts ∧ t ≠ "" := by
  rw [pdedup, pdedup_go_mem]
  simp

theorem init_tokens_eq (ts : List String) (ft : Int) :
    (TokenPool.init ts ft).tokens = pdedup ts := by
  rw [TokenPool.init]
  by_cases h : ts = []
  · subst h; rw [if_pos rfl]; rfl
  · rw [if_neg h]; rfl

theorem init_threshold_eq (ts : List String) (ft : Int) :
    (TokenPool.init ts ft).threshold = (max 1 ft).toNat := by
  rw [TokenPool.init]
  by_cases h : ts = []
  · rw [if_pos h]
  · rw [if_neg h]; rfl

theorem init_failures_getD (ts : List String) (ft : Int) (c : String) :
    ((TokenPool.init ts ft).failures c).getD 0 = 0 := by
  rw [TokenPool.init]
  by_cases h : ts = []
  · rw [if_pos h]; rfl
  · rw [if_neg h]
    show ((TokenPool.update _ ts).failures c).getD 0 = 0
    rw [TokenPool.update]
    by_cases hc : c ∈ pdedup ts <;> simp [hc]

theorem availableTokens_sub (cooldown now : Int) (p : TokenPool) :
    ∀ t ∈ availableTokens cooldown now p, t ∈ p.tokens := by
  intro t ht
  exact (List.mem_filter.1 ht).1

theorem availableTokens_cleared (cooldown now : Int) (p : TokenPool) :
    availableTokens cooldown now { p with disabled := fun _ => none } = p.tokens := by
  rw [availableTokens]
  simp [availOK]

theorem availableTokens_all_none (cooldown now : Int) (p : TokenPool)
    (hav : ∀ t ∈ p.tokens, p.disabled t = none) :
    availableTokens cooldown now p = p.tokens := by
  rw [availableTokens, List.filter_eq_self]
  intro t ht
  rw [hav t ht]
  rfl

theorem get_result_mem (cooldown now : Int) (p : TokenPool)
    (h : availableTokens cooldown now p ≠ []) :
    ∃ e, (TokenPool.get cooldown now p).1 = some e ∧
      e ∈ availableTokens cooldown now p := by
  rw [TokenPool.get]
  simp only [if_neg h]
  refine ⟨_, rfl, ?_⟩
  have hl : 0 < (availableTokens cooldown now p).length := List.length_pos.mpr h
  rw [List.getD_eq_get _ _ (Nat.mod_lt _ hl)]
  exact List.get_mem _ _ _

/-! ### C8 — parser skip semantics -/

/-- C8: `response.parse` yields exactly the successfully decoded remainders
of the non-blank lines carrying the `data: ` prefix, skipping blank lines,
unprefixed lines, and lines whose remainder fails to decode; totality of
`parseStream` embeds "never raises". -/
theorem parse_filterMap {α : Type} (dec : String → Option α) (lines : List String) :
    parseStream dec lines =
      lines.filterMap (fun l =>
        if l = "" ∨ ¬ (String.startsWith l "data: ") then none
        else dec (String.drop l 6)) := by
  induction lines with
  | nil => rfl
  | cons l ls ih =>
    rw [parseStream, List.filterMap_cons]
    by_cases h : l = "" ∨ ¬ (String.startsWith l "data: ")
    · rw [if_pos h, if_pos h, ih]
    · rw [if_neg h, if_neg h]
      cases hd : dec (String.drop l 6) with
      | none => rw [ih]
      | some j => rw [ih]

/-! ### C10 — constructor threshold clamping -/

/-- C10: the effective failure threshold is `max(1, failure_threshold)`;
with a constructor argument of at most 1 (in particular 0 or less), a
single `mark_failure` of a pool credential already starts its cooldown. -/
theorem init_threshold_clamp (ts : List String) (ft : Int) :
    ((TokenPool.init ts ft).threshold : Int) = max 1 ft ∧
    (ft ≤ 1 → ∀ (c : String) (now : Int), c ∈ (TokenPool.init ts ft).tokens →
      (TokenPool.markFailure now (TokenPool.init ts ft) c).disabled c = some now) := by
  constructor
  · rw [init_threshold_eq]
    have h1 : (1 : Int) ≤ max 1 ft := le_max_left 1 ft
    omega
  · intro hft c now hc
    have hc0 : c ≠ "" := by
      rw [init_tokens_eq, mem_pdedup] at hc
      exact hc.2
    have hth : (TokenPool.init ts ft).threshold = 1 := by
      rw [init_threshold_eq]
      omega
    rw [TokenPool.markFailure, if_neg (by push_neg; exact ⟨hc0, hc⟩)]
    simp [hth, init_failures_getD]

/-! ### C6 — update with the same contents -/

/-- C6: `update` with a list holding the same set of credentials as the
pool (any order, duplicates allowed) yields the deduplicated,
order-preserving projection of the input, resets the cursor to 0, and
preserves the failure and success counters of every retained credential. -/
theorem update_same_contents (p : TokenPool) (l : List String)
    (hset : ∀ t, t ∈ l ↔ t ∈ p.tokens) (hne : "" ∉ p.tokens) :
    (p.update l).tokens = pdedup l ∧ (p.update l).index = 0 ∧
    ∀ c ∈ p.tokens,
      ((p.update l).failures c).getD 0 = (p.failures c).getD 0 ∧
      ((p.update l).successes c).getD 0 = (p.successes c).getD 0 := by
  refine ⟨rfl, rfl, fun c hc => ?_⟩
  have hc0 : c ≠ "" := fun h => hne (h ▸ hc)
  have hcu : c ∈ pdedup l := (mem_pdedup l c).2 ⟨(hset c).2 hc, hc0⟩
  simp only [TokenPool.update]
  constructor
  · cases hf : p.failures c <;> simp [hcu, hf]
  · cases hf : p.failures c <;> cases hs : p.successes c <;> simp [hcu, hf, hs]

/-! ### C5 — fail-open recovery -/

/-- C5: `get()` on a non-empty pool never returns `none`; and when every
credential is under an unexpired cooldown, the call clears all cooldowns
and returns a credential of the pool. -/
theorem get_failopen (cooldown now : Int) (p : TokenPool) (hne : p.tokens ≠ []) :
    (TokenPool.get cooldown now p).1 ≠ none ∧
    ((∀ t ∈ p.tokens, ∃ d, p.disabled t = some d ∧ now - d < cooldown) →
      (∃ c, (TokenPool.get cooldown now p).1 = some c ∧ c ∈ p.tokens) ∧
      ∀ t, (TokenPool.get cooldown now p).2.disabled t = none) := by
  by_cases h0 : availableTokens cooldown now p = []
  · have hcl : availableTokens cooldown now { p with disabled := fun _ => none } = p.tokens :=
      availableTokens_cleared cooldown now p
    have hres : TokenPool.get cooldown now p =
        (some (p.tokens.getD (p.index % p.tokens.length) ""),
         { p with disabled := fun _ => none, index := (p.index + 1) % p.tokens.length }) := by
      rw [TokenPool.get]
      simp only [if_pos h0, hcl, if_neg hne]
    rw [hres]
    refine ⟨by simp, fun _ => ⟨⟨_, rfl, ?_⟩, fun t => rfl⟩⟩
    have hl : 0 < p.tokens.length := List.length_pos.mpr hne
    rw [List.getD_eq_get _ _ (Nat.mod_lt _ hl)]
    exact List.get_mem _ _ _
  · constructor
    · obtain ⟨e, he, _⟩ := get_result_mem cooldown now p h0
      rw [he]
      simp
    · intro hcool
      exfalso
      apply h0
      rw [availableTokens]
      rw [List.filter_eq_nil]
      intro t ht
      obtain ⟨d, hd, hlt⟩ := hcool t ht
      simp [availOK, hd]
      omega

/-! ### C4 — cooldown exclusion after threshold failures -/

theorem markFailure_tokens (now : Int) (p : TokenPool) (c : String) :
    (TokenPool.markFailure now p c).tokens = p.tokens := by
  rw [TokenPool.markFailure]
  split_ifs <;> rfl

theorem markFailure_threshold (now : Int) (p : TokenPool) (c : String) :
    (TokenPool.markFailure now p c).threshold = p.threshold := by
  rw [TokenPool.markFailure]
  split_ifs <;> rfl

theorem markFailure_disabled_other (now : Int) (p : TokenPool) (c d : String) (hdc : d ≠ c) :
    (TokenPool.markFailure now p c).disabled d = p.disabled d := by
  rw [TokenPool.markFailure]
  by_cases h1 : c = "" ∨ c ∉ p.tokens
  · rw [if_pos h1]
  · rw [if_neg h1]
    show (if p.threshold ≤ (p.failures c).getD 0 + 1
        then (fun t => if t = c then some now else p.disabled t)
        else p.disabled) d = p.disabled d
    split_ifs <;> simp [hdc]

theorem markFailure_failures_self (now : Int) (p : TokenPool) (c : String)
    (hc : c ∈ p.tokens) (hc0 : c ≠ "") :
    (TokenPool.markFailure now p c).failures c = some ((p.failures c).getD 0 + 1) := by
  rw [TokenPool.markFailure, if_neg (by push_neg; exact ⟨hc0, hc⟩)]
  show (fun t => if t = c then some ((p.failures c).getD 0 + 1) else p.failures t) c = _
  simp

theorem markFailure_disabled_lt (now : Int) (p : TokenPool) (c : String)
    (hlt : (p.failures c).getD 0 + 1 < p.threshold) :
    (TokenPool.markFailure now p c).disabled = p.disabled := by
  rw [TokenPool.markFailure]
  split_ifs with h1
  · rfl
  · show (if p.threshold ≤ (p.failures c).getD 0 + 1
        then (fun t => if t = c then some now else p.disabled t)
        else p.disabled) = p.disabled
    rw [if_neg (by omega)]

theorem markFailure_disabled_ge (now : Int) (p : TokenPool) (c : String)
    (hc : c ∈ p.tokens) (hc0 : c ≠ "")
    (hge : p.threshold ≤ (p.failures c).getD 0 + 1) :
    (TokenPool.markFailure now p c).disabled c = some now := by
  rw [TokenPool.markFailure, if_neg (by push_neg; exact ⟨hc0, hc⟩)]
  show (if p.threshold ≤ (p.failures c).getD 0 + 1
      then (fun t => if t = c then some now else p.disabled t)
      else p.disabled) c = some now
  rw [if_pos hge]
  simp

theorem markFailureSeq_tokens (times : List Int) :
    ∀ (p : TokenPool) (c : String), (markFailureSeq p c times).tokens = p.tokens := by
  induction times with
  | nil => intro p c; rfl
  | cons τ ts ih =>
    intro p c
    show (markFailureSeq (TokenPool.markFailure τ p c) c ts).tokens = _
    rw [ih, markFailure_tokens]

theorem markFailureSeq_threshold (times : List Int) :
    ∀ (p : TokenPool) (c : String), (markFailureSeq p c times).threshold = p.threshold := by
  induction times with
  | nil => intro p c; rfl
  | cons τ ts ih =>
    intro p c
    show (markFailureSeq (TokenPool.markFailure τ p c) c ts).threshold = _
    rw [ih, markFailure_threshold]

theorem markFailureSeq_disabled_other (times : List Int) :
    ∀ (p : TokenPool) (c d : String), d ≠ c →
      (markFailureSeq p c times).disabled d = p.disabled d := by
  induction times with
  | nil => intro p c d _; rfl
  | cons τ ts ih =>
    intro p c d hdc
    show (markFailureSeq (TokenPool.markFailure τ p c) c ts).disabled d = _
    rw [ih _ _ _ hdc, markFailure_disabled_other _ _ _ _ hdc]

theorem markFailureSeq_failures_getD (times : List Int) :
    ∀ (p : TokenPool) (c : String), c ∈ p.tokens → c ≠ "" →
      ((markFailureSeq p c times).failures c).getD 0 =
        (p.failures c).getD 0 + times.length := by
  induction times with
  | nil => intro p c _ _; rfl
  | cons τ ts ih =>
    intro p c hc hc0
    show ((markFailureSeq (TokenPool.markFailure τ p c) c ts).failures c).getD 0 = _
    rw [ih _ _ ((markFailure_tokens τ p c) ▸ hc) hc0, markFailure_failures_self τ p c hc hc0]
    simp only [Option.getD_some, List.length_cons]
    omega

theorem markFailureSeq_disabled_lt (times : List Int) :
    ∀ (p : TokenPool) (c : String), c ∈ p.tokens → c ≠ "" →
      (p.failures c).getD 0 + times.length < p.threshold →
      (markFailureSeq p c times).disabled = p.disabled := by
  induction times with
  | nil => intro p c _ _ _; rfl
  | cons τ ts ih =>
    intro p c hc hc0 hlt
    have hc2 : c ∈ (TokenPool.markFailure τ p c).tokens := by
      rw [markFailure_tokens]
      exact hc
    have hstep : ((TokenPool.markFailure τ p c).failures c).getD 0 + ts.length <
        (TokenPool.markFailure τ p c).threshold := by
      rw [markFailure_failures_self τ p c hc hc0, markFailure_threshold]
      simp only [Option.getD_some]
      simp only [List.length_cons] at hlt
      omega
    have h1 : (p.failures c).getD 0 + 1 < p.threshold := by
      simp only [List.length_cons] at hlt
      omega
    show (markFailureSeq (TokenPool.markFailure τ p c) c ts).disabled = _
    rw [ih _ _ hc2 hc0 hstep, markFailure_disabled_lt τ p c h1]

theorem markFailureSeq_disables (p : TokenPool) (c : String) (times : List Int)
    (hc : c ∈ p.tokens) (hc0 : c ≠ "")
    (hf : (p.failures c).getD 0 = 0) (hth : 1 ≤ p.threshold)
    (hlen : times.length = p.threshold) (hne : times ≠ []) :
    (markFailureSeq p c times).disabled c = some (times.getLast hne) := by
  have hfold : markFailureSeq p c times =
      TokenPool.markFailure (times.getLast hne) (markFailureSeq p c times.dropLast) c := by
    conv_lhs => rw [← List.dropLast_append_getLast hne]
    rw [markFailureSeq, List.foldl_append]
    rfl
  rw [hfold]
  have hqc : c ∈ (markFailureSeq p c times.dropLast).tokens :=
    (markFailureSeq_tokens _ _ _).symm ▸ hc
  apply markFailure_disabled_ge _ _ _ hqc hc0
  rw [markFailureSeq_threshold, markFailureSeq_failures_getD _ _ _ hc hc0, hf,
    List.length_dropLast]
  have hpos : 0 < times.length := List.length_pos.mpr hne
  omega

/-- C4: after exactly `threshold` consecutive `mark_failure(c)` calls on a
fresh credential (failure count 0, no intervening success), `c` is
disabled at the time of the last call, and as long as the cooldown has not
elapsed since then, `get()` never returns `c` from any rotation position,
provided some other credential is available (so the fail-open reset does
not fire). -/
theorem cooldown_excludes (cooldown : Int) (p : TokenPool) (c : String) (times : List Int)
    (hc : c ∈ p.tokens) (hc0 : c ≠ "")
    (hf : (p.failures c).getD 0 = 0) (hth : 1 ≤ p.threshold)
    (hlen : times.length = p.threshold) (hne : times ≠ []) :
    (markFailureSeq p c times).disabled c = some (times.getLast hne) ∧
    ∀ (i : Nat) (now : Int) (d : String),
      now - times.getLast hne < cooldown →
      d ∈ p.tokens → d ≠ c →
      availOK cooldown now (p.disabled d) = true →
      (TokenPool.get cooldown now { markFailureSeq p c times with index := i }).1 ≠ some c := by
  have hdis := markFailureSeq_disables p c times hc hc0 hf hth hlen hne
  refine ⟨hdis, ?_⟩
  intro i now d hnow hd hdc hdavail
  have hdq : ({ markFailureSeq p c times with index := i } : TokenPool).disabled d
      = p.disabled d := markFailureSeq_disabled_other times p c d hdc
  have hdmem : d ∈ availableTokens cooldown now { markFailureSeq p c times with index := i } := by
    rw [availableTokens, List.mem_filter]
    constructor
    · show d ∈ (markFailureSeq p c times).tokens
      rw [markFailureSeq_tokens]
      exact hd
    · rw [hdq]
      exact hdavail
  have hav : availableTokens cooldown now
      { markFailureSeq p c times with index := i } ≠ [] := by
    intro hnil
    rw [hnil] at hdmem
    exact absurd hdmem (List.not_mem_nil d)
  obtain ⟨e, he, hemem⟩ := get_result_mem cooldown now _ hav
  rw [he]
  intro hec
  have hec2 : e = c := by injection hec
  rw [availableTokens, List.mem_filter] at hemem
  have h2 := hemem.2
  rw [hec2] at h2
  have h3 : availOK cooldown now ((markFailureSeq p c times).disabled c) = true := h2
  rw [hdis] at h3
  simp [availOK] at h3
  omega

/-! ### C3 — round-robin fairness -/

theorem countP_range_mod_one (n a t : Nat) (hn : 0 < n) (ht : t < n) :
    (List.range n).countP (fun j => decide ((a + j) % n = t)) = 1 := by
  have hrlt : a % n < n := Nat.mod_lt _ hn
  set j0 := if a % n ≤ t then t - a % n else t + n - a % n with hj0
  have hj0lt : j0 < n := by
    rw [hj0]
    split_ifs <;> omega
  have key : ∀ j, j < n → (((a + j) % n = t) ↔ j = j0) := by
    intro j hj
    have hmod : (a + j) % n = (a % n + j) % n := by
      rw [Nat.add_mod, Nat.mod_eq_of_lt hj]
    have h2 : (a % n + j) % n = if a % n + j < n then a % n + j else a % n + j - n := by
      split_ifs with hlt
      · exact Nat.mod_eq_of_lt hlt
      · rw [Nat.mod_eq_sub_mod (by omega)]
        exact Nat.mod_eq_of_lt (by omega)
    rw [hmod, h2, hj0]
    split_ifs <;> omega
  have hcongr : (List.range n).countP (fun j => decide ((a + j) % n = t)) =
      (List.range n).countP (fun j => j == j0) := by
    apply List.countP_congr
    intro j hj
    rw [List.mem_range] at hj
    simp only [decide_eq_true_eq, beq_iff_eq]
    exact key j hj
  rw [hcongr, ← List.count_eq_countP,
    List.count_eq_one_of_mem (List.nodup_range n) (List.mem_range.mpr hj0lt)]

theorem countP_range_mul_mod (k n a t : Nat) (hn : 0 < n) (ht : t < n) :
    (List.range (k * n)).countP (fun j => decide ((a + j) % n = t)) = k := by
  induction k with
  | zero => simp
  | succ k ih =>
    have hsplit : (k + 1) * n = k * n + n := by ring
    rw [hsplit, List.range_add, List.countP_append, ih, List.countP_map]
    have hblock : (List.range n).countP
        ((fun j => decide ((a + j) % n = t)) ∘ (fun x => k * n + x)) =
        (List.range n).countP (fun j => decide ((a + k * n + j) % n = t)) := by
      apply List.countP_congr
      intro j _
      simp only [Function.comp, decide_eq_true_eq]
      have harith : a + (k * n + j) = a + k * n + j := by omega
      rw [harith]
    rw [hblock, countP_range_mod_one n (a + k * n) t hn ht]

theorem get_all_avail (cooldown now : Int) (p : TokenPool)
    (hne : p.tokens ≠ []) (hav : ∀ t ∈ p.tokens, p.disabled t = none) :
    TokenPool.get cooldown now p =
      (some (p.tokens.getD (p.index % p.tokens.length) ""),
       { p with index := (p.index + 1) % p.tokens.length }) := by
  have h1 : availableTokens cooldown now p = p.tokens :=
    availableTokens_all_none cooldown now p hav
  rw [TokenPool.get]
  simp only [h1, if_neg hne]

theorem getSeq_formula (cooldown : Int) (p : TokenPool)
    (hne : p.tokens ≠ []) (hav : ∀ t ∈ p.tokens, p.disabled t = none) :
    ∀ (times : List Int) (i : Nat),
      (getSeq cooldown times { p with index := i }).1 =
        (List.range times.length).map
          (fun j => some (p.tokens.getD ((i + j) % p.tokens.length) "")) := by
  intro times
  induction times with
  | nil => intro i; rfl
  | cons τ ts ih =>
    intro i
    have hget := get_all_avail cooldown τ { p with index := i } hne hav
    show (TokenPool.get cooldown τ { p with index := i }).1 ::
        (getSeq cooldown ts (TokenPool.get cooldown τ { p with index := i }).2).1 = _
    rw [hget]
    show some (p.tokens.getD (i % p.tokens.length) "") ::
        (getSeq cooldown ts { p with index := (i + 1) % p.tokens.length }).1 = _
    rw [ih ((i + 1) % p.tokens.length)]
    simp only [List.length_cons]
    rw [List.range_succ_eq_map, List.map_cons, List.map_map]
    congr 1
    apply List.map_congr_left
    intro j _
    simp only [Function.comp]
    rw [Nat.mod_add_mod]
    have harith : i + 1 + j = i + Nat.succ j := by omega
    rw [harith]

/-- C3: with every pool credential available (no recorded cooldowns) and
no intervening mutation, `k * N` consecutive `get()` calls walk the token
list in stable round-robin order from the current cursor, returning each
of the `N` distinct credentials exactly `k` times. -/
theorem get_roundrobin (cooldown : Int) (p : TokenPool) (times : List Int) (k : Nat)
    (hnd : p.tokens.Nodup) (hne : p.tokens ≠ [])
    (hav : ∀ t ∈ p.tokens, p.disabled t = none)
    (hlen : times.length = k * p.tokens.length) :
    (getSeq cooldown times p).1 =
      (List.range times.length).map
        (fun j => some (p.tokens.getD ((p.index + j) % p.tokens.length) "")) ∧
    ∀ c ∈ p.tokens, (getSeq cooldown times p).1.count (some c) = k := by
  have hp : ({ p with index := p.index } : TokenPool) = p := rfl
  have hform := getSeq_formula cooldown p hne hav times p.index
  rw [hp] at hform
  refine ⟨hform, ?_⟩
  intro c hc
  rw [hform]
  obtain ⟨tc, htc, hgc⟩ := List.mem_iff_getElem.mp hc
  rw [List.count_eq_countP, List.countP_map]
  have hN : 0 < p.tokens.length := List.length_pos.mpr hne
  have hcongr : ∀ j ∈ List.range times.length,
      (((fun x => x == some c) ∘
        (fun j => some (p.tokens.getD ((p.index + j) % p.tokens.length) ""))) j = true) ↔
      ((fun j => decide ((p.index + j) % p.tokens.length = tc)) j = true) := by
    intro j _
    have hjlt : (p.index + j) % p.tokens.length < p.tokens.length := Nat.mod_lt _ hN
    simp only [Function.comp, beq_iff_eq, Option.some.injEq, decide_eq_true_eq]
    rw [List.getD_eq_getElem _ _ hjlt]
    constructor
    · intro h
      have heq : p.tokens[(p.index + j) % p.tokens.length] = p.tokens[tc] := by
        rw [h, hgc]
      exact (List.Nodup.getElem_inj_iff hnd).mp heq
    · intro h
      subst h
      exact hgc
  rw [List.countP_congr hcongr, hlen]
  exact countP_range_mul_mod k p.tokens.length p.index tc hN htc

/-! ### Normalizer dispatch lemmas (C1, C2, C7) -/

theorem pyRepr_ne_empty (c : String) : pyRepr c ≠ "" := by
  intro h
  rw [pyRepr] at h
  have hlen := congrArg String.length h
  rw [String.length_append, String.length_append] at hlen
  have h1 : ("\x27" : String).length = 1 := rfl
  have h0 : ("" : String).length = 0 := rfl
  rw [h1, h0] at hlen
  omega

/-- Inversion of an `.ok` result of `format`: the delta is `none` (empty
input) or the dispatch of the transformed text at the final phase, which
is also the updated `phaseBak`. -/
theorem format_ok_delta (mode bak : String) (rec? : Option RecordData)
    (d : Option Delta) (pb : String)
    (h : format mode bak rec? = .ok (d, pb)) :
    d = none ∨ ∃ c, d = dispatch mode pb c := by
  cases rec? with
  | none =>
    simp only [format] at h
    rw [Except.ok.injEq, Prod.mk.injEq] at h
    exact Or.inl h.1.symm
  | some r =>
    simp only [format] at h
    generalize hc0 : (if r.deltaContent ≠ "" then r.deltaContent else r.editContent) = c0 at h
    by_cases hz : c0 = ""
    · rw [if_pos hz] at h
      rw [Except.ok.injEq, Prod.mk.injEq] at h
      exact Or.inl h.1.symm
    · rw [if_neg hz] at h
      cases hT : thinkTransform mode bak (toolCallAdjust bak (r.phase?.getD "other") c0).1
          (toolCallAdjust bak (r.phase?.getD "other") c0).2 with
      | error e =>
        rw [hT] at h
        exact absurd h (by simp [Except.map])
      | ok c2 =>
        rw [hT] at h
        simp only [Except.map] at h
        rw [Except.ok.injEq, Prod.mk.injEq] at h
        obtain ⟨h1, h2⟩ := h
        subst h2
        exact Or.inr ⟨_, h1.symm⟩

/-- Same inversion when the raw delta text is non-empty: the `none` case
is impossible and the delta is exactly the dispatch. -/
theorem format_ok_delta_nonempty (mode bak : String) (r : RecordData)
    (d : Option Delta) (pb : String)
    (hraw : (if r.deltaContent ≠ "" then r.deltaContent else r.editContent) ≠ "")
    (h : format mode bak (some r) = .ok (d, pb)) :
    ∃ c, d = dispatch mode pb c := by
  simp only [format] at h
  generalize hc0 : (if r.deltaContent ≠ "" then r.deltaContent else r.editContent) = c0 at h hraw
  rw [if_neg hraw] at h
  cases hT : thinkTransform mode bak (toolCallAdjust bak (r.phase?.getD "other") c0).1
      (toolCallAdjust bak (r.phase?.getD "other") c0).2 with
  | error e =>
    rw [hT] at h
    exact absurd h (by simp [Except.map])
  | ok c2 =>
    rw [hT] at h
    simp only [Except.map] at h
    rw [Except.ok.injEq, Prod.mk.injEq] at h
    obtain ⟨h1, h2⟩ := h
    subst h2
    exact ⟨_, h1.symm⟩

theorem dispatch_strip_ne (phase c s : String) :
    dispatch "strip" phase c ≠ some (Delta.reasoningContent s) := by
  rw [dispatch]
  split_ifs with h1 h2 h3
  · exact absurd h1.2 (by decide)
  · simp
  · simp
  · simp

/-- C7: under the `strip` rendering mode, `response.format` never emits a
`reasoning_content` delta, whatever the record and the previously recorded
phase. -/
theorem strip_no_reasoning (bak : String) (rec? : Option RecordData)
    (d : Option Delta) (pb s : String)
    (h : format "strip" bak rec? = .ok (d, pb)) :
    d ≠ some (Delta.reasoningContent s) := by
  rcases format_ok_delta "strip" bak rec? d pb h with h1 | ⟨c, h2⟩
  · subst h1
    simp
  · rw [h2]
    exact dispatch_strip_ne pb c s

/-- C7 witness: a concrete strip-mode run, fed to the theorem. -/
theorem strip_no_reasoning_witness :
    (some (Delta.contentDelta "Hi") : Option Delta) ≠
      some (Delta.reasoningContent "Hi") :=
  strip_no_reasoning "thinking" (some ⟨some "thinking", "Hi", ""⟩)
    (some (Delta.contentDelta "Hi")) "thinking" "Hi" rfl

/-- C2 counterexample: a tool-call record with non-empty transformed text.
The code dispatches it as a tool-call fragment, while the claim's order
(non-empty text checked before the tool-call phase) demands a content
delta. -/
theorem dispatch_order_cex :
    format "strip" "other" (some ⟨some "tool_call", "X", ""⟩) =
      .ok (some (Delta.toolCallFragment "X"), "tool_call") ∧
    specDispatch "strip" "tool_call" "X" = some (Delta.contentDelta "X") ∧
    some (Delta.toolCallFragment "X") ≠ some (Delta.contentDelta "X") :=
  ⟨rfl, rfl, by decide⟩

/-- C2 amended: for a record with non-empty raw delta text, the dispatch
order is reasoning delta (thinking phase in `reasoning` mode), **then**
tool-call fragment (tool-call phase), then always a content delta: the
emptiness test is on `repr(text)`, which is never empty, so the
emit-nothing arm is unreachable and an empty transformed text is still
emitted as an (empty) content delta. -/
theorem dispatch_order_amended (mode bak : String) (r : RecordData)
    (d : Option Delta) (pb : String)
    (hraw : (if r.deltaContent ≠ "" then r.deltaContent else r.editContent) ≠ "")
    (h : format mode bak (some r) = .ok (d, pb)) :
    ∃ c, d =
      (if pb = "thinking" ∧ mode = "reasoning" then some (Delta.reasoningContent c)
       else if pb = "tool_call" then some (Delta.toolCallFragment c)
       else some (Delta.contentDelta c)) := by
  obtain ⟨c, hd⟩ := format_ok_delta_nonempty mode bak r d pb hraw h
  refine ⟨c, ?_⟩
  rw [hd, dispatch]
  split_ifs with h1 h2 h3
  · rfl
  · rfl
  · rfl
  · exact absurd (pyRepr_ne_empty c) h3

/-- C2 witness: a concrete non-empty record fed to the amended theorem. -/
theorem dispatch_order_amended_witness :
    ∃ c, (some (Delta.contentDelta "Hello") : Option Delta) =
      (if ("other" : String) = "thinking" ∧ ("think" : String) = "reasoning" then
        some (Delta.reasoningContent c)
       else if ("other" : String) = "tool_call" then some (Delta.toolCallFragment c)
       else some (Delta.contentDelta c)) :=
  dispatch_order_amended "think" "x" ⟨some "other", "Hello", ""⟩
    (some (Delta.contentDelta "Hello")) "other" (by decide) rfl

theorem dispatch_answer (mode c : String) :
    dispatch mode "answer" c = some (Delta.contentDelta c) := by
  rw [dispatch]
  rw [if_neg (fun h => absurd h.1 (by decide)), if_neg (by decide),
    if_pos (pyRepr_ne_empty c)]

/-- The thinking-extraction block on an answer event whose canonicalized
text splits at the first close marker with non-blank tail, when the
previous phase was `thinking`: the spliced text handed to the
rendering-mode substitution is the close marker padded by two newlines on
each side, followed by the tail with **all** leading newlines stripped. -/
theorem thinkTransform_splice (mode raw b a : String)
    (hsum : hasSub raw "summary>" = true)
    (hsplit : splitReasoning (canonicalize "answer" raw) = some (b, a))
    (hblank : pyBlank a = false) :
    thinkTransform mode "thinking" "answer" raw =
      modeSubst mode "answer" (some b) ("\n\n</reasoning>\n\n" ++ lstripNl a) := by
  rw [thinkTransform, if_pos (Or.inr ⟨rfl, hsum⟩), if_pos rfl, hsplit]
  simp [hblank]

/-- Glue: `format` on an answer-phase record with non-empty raw text is
the thinking extraction followed by a content-delta dispatch, updating
`phaseBak` to `answer`. -/
theorem format_answer (mode bak raw : String) (hraw : raw ≠ "") :
    format mode bak (some ⟨some "answer", raw, ""⟩) =
      (thinkTransform mode bak "answer" raw).map
        (fun c2 => (dispatch mode "answer" c2, "answer")) := by
  simp only [format, Option.getD_some]
  rw [if_pos hraw, if_neg hraw]
  rw [toolCallAdjust, if_neg (by decide : ¬ ("answer" : String) = "tool_call"),
    if_neg (fun h => absurd h.1 (by decide : ¬ ("answer" : String) = "other"))]

/-- C1 counterexample: mode `think`, previous phase `thinking`, answer
text canonicalizing to `</summary>\n\n</reasoning>World`. The emitted
content delta is `\n\n</think>\n\nWorld` — all leading newlines of the
tail are stripped and a two-newline pad is inserted around the marker —
not the close marker concatenated with `World` (in either the rendered or
the canonical spelling). -/
theorem boundary_splice_cex :
    format "think" "thinking" (some ⟨some "answer", "</summary>\n</details>World", ""⟩) =
      .ok (some (Delta.contentDelta "\n\n</think>\n\nWorld"), "answer") ∧
    "\n\n</think>\n\nWorld" ≠ "</think>" ++ "World" ∧
    "\n\n</think>\n\nWorld" ≠ "</reasoning>" ++ "World" :=
  ⟨rfl, by decide, by decide⟩

/-- C1 amended: for every rendering mode, on an answer-phase record whose
canonicalized text contains the close marker with non-blank content after
it and with previous phase `thinking`, the emission is a content delta
equal to the rendering-mode substitution applied to
`"\n\n</reasoning>\n\n" ++ after`, where **all** leading newlines of
`after` are first stripped (the marker survives only in modes that keep
it), and `phaseBak` becomes `answer`. -/
theorem boundary_splice_amended (mode raw b a : String)
    (hraw : raw ≠ "")
    (hsum : hasSub raw "summary>" = true)
    (hsplit : splitReasoning (canonicalize "answer" raw) = some (b, a))
    (hblank : pyBlank a = false) :
    format mode "thinking" (some ⟨some "answer", raw, ""⟩) =
      (modeSubst mode "answer" (some b) ("\n\n</reasoning>\n\n" ++ lstripNl a)).map
        (fun c => (some (Delta.contentDelta c), "answer")) := by
  rw [format_answer mode "thinking" raw hraw,
    thinkTransform_splice mode raw b a hsum hsplit hblank]
  cases modeSubst mode "answer" (some b) ("\n\n</reasoning>\n\n" ++ lstripNl a) with
  | error e => rfl
  | ok c => simp [Except.map, dispatch_answer]

/-- C1 witness: the counterexample input fed through the amended theorem
(`think` mode keeps the marker, renamed to the think spelling). -/
theorem boundary_splice_amended_witness :
    format "think" "thinking" (some ⟨some "answer", "</summary>\n</details>World", ""⟩) =
      (modeSubst "think" "answer" (some "</summary>\n\n</reasoning>")
        ("\n\n</reasoning>\n\n" ++ lstripNl "World")).map
        (fun c => (some (Delta.contentDelta c), "answer")) :=
  boundary_splice_amended "think" "</summary>\n</details>World"
    "</summary>\n\n</reasoning>" "World" (by decide) rfl rfl rfl

/-! ### C9 — metrics success classification -/

/-- C9: `RequestMetrics.record` classifies the call as a success exactly
when a status code is present and lies in `[200, 400)`; a present status in
`[400, 600)` or an absent one bumps the failure totals and the per-key
failure counter instead. -/
theorem record_classification (ident : String → String) (nowIso : String)
    (m : RequestMetrics) (method path : String) (statusCode : Option Int)
    (duration : Rat) (clientIp : String) (ti? : Option TokenInfo)
    (error? : Option String) :
    ((∃ s, statusCode = some s ∧ 200 ≤ s ∧ s < 400) →
      (RequestMetrics.record ident nowIso m method path statusCode duration clientIp
        ti? error?).successRequests = m.successRequests + 1 ∧
      (RequestMetrics.record ident nowIso m method path statusCode duration clientIp
        ti? error?).failureRequests = m.failureRequests ∧
      (((RequestMetrics.record ident nowIso m method path statusCode duration clientIp
        ti? error?).tokenStats (metricKey (tokenMeta ident ti?))).getD defaultStat).success
        = ((m.tokenStats (metricKey (tokenMeta ident ti?))).getD defaultStat).success + 1 ∧
      (((RequestMetrics.record ident nowIso m method path statusCode duration clientIp
        ti? error?).tokenStats (metricKey (tokenMeta ident ti?))).getD defaultStat).failure
        = ((m.tokenStats (metricKey (tokenMeta ident ti?))).getD defaultStat).failure) ∧
    ((statusCode = none ∨ ∃ s, statusCode = some s ∧ 400 ≤ s ∧ s < 600) →
      (RequestMetrics.record ident nowIso m method path statusCode duration clientIp
        ti? error?).failureRequests = m.failureRequests + 1 ∧
      (RequestMetrics.record ident nowIso m method path statusCode duration clientIp
        ti? error?).successRequests = m.successRequests ∧
      (((RequestMetrics.record ident nowIso m method path statusCode duration clientIp
        ti? error?).tokenStats (metricKey (tokenMeta ident ti?))).getD defaultStat).failure
        = ((m.tokenStats (metricKey (tokenMeta ident ti?))).getD defaultStat).failure + 1 ∧
      (((RequestMetrics.record ident nowIso m method path statusCode duration clientIp
        ti? error?).tokenStats (metricKey (tokenMeta ident ti?))).getD defaultStat).success
        = ((m.tokenStats (metricKey (tokenMeta ident ti?))).getD defaultStat).success) := by
  constructor
  · rintro ⟨s, hs, h1, h2⟩
    have hsucc : classifySuccess statusCode = true := by
      rw [hs]
      simp only [classifySuccess, decide_eq_true_eq]
      exact ⟨h1, h2⟩
    refine ⟨?_, ?_, ?_, ?_⟩ <;>
      (simp [RequestMetrics.record, hsucc, apply_ite]) <;> (split_ifs <;> rfl)
  · intro hfail
    have hsucc : classifySuccess statusCode = false := by
      rcases hfail with h | ⟨s, hs, h1, h2⟩
      · rw [h]
        rfl
      · rw [hs]
        simp only [classifySuccess, decide_eq_false_iff_not]
        omega
    refine ⟨?_, ?_, ?_, ?_⟩ <;>
      (simp [RequestMetrics.record, hsucc, apply_ite]) <;> (split_ifs <;> rfl)

/-- C9 witness: a 204 response on a fresh recorder, fed to the theorem. -/
theorem record_classification_witness :
    (RequestMetrics.record (fun s => s) "now" ⟨0, 0, 0, 0, [], fun _ => none⟩
      "GET" "/v1" (some 204) 0 "ip" none none).successRequests = 0 + 1 :=
  ((record_classification (fun s => s) "now" ⟨0, 0, 0, 0, [], fun _ => none⟩
    "GET" "/v1" (some 204) 0 "ip" none none).1 ⟨204, rfl, by omega, by omega⟩).1

/-! ### Witnesses for the pool theorems -/

/-- C3 witness: two fresh credentials, four calls, each returned twice. -/
theorem get_roundrobin_witness :
    ((getSeq 1800 [0, 0, 0, 0]
      ⟨["a", "b"], 0, 3, fun _ => some 0, fun _ => some 0, fun _ => none⟩).1.count
        (some "a")) = 2 :=
  (get_roundrobin 1800
    ⟨["a", "b"], 0, 3, fun _ => some 0, fun _ => some 0, fun _ => none⟩
    [0, 0, 0, 0] 2 (by decide) (by decide) (fun t _ => rfl) (by decide)).2 "a" (by decide)

/-- C4 witness: threshold 2, two failures at times 3 and 4; a `get` at
time 10 (cooldown 1800) does not return the disabled credential. -/
theorem cooldown_excludes_witness :
    (TokenPool.get 1800 10
      { markFailureSeq ⟨["a", "b"], 0, 2, fun _ => some 0, fun _ => some 0, fun _ => none⟩
          "a" [3, 4] with index := 0 }).1 ≠ some "a" :=
  (cooldown_excludes 1800
    ⟨["a", "b"], 0, 2, fun _ => some 0, fun _ => some 0, fun _ => none⟩
    "a" [3, 4] (by decide) (by decide) rfl (by decide) (by decide) (by decide)).2
    0 10 "b" (by decide) (by decide) (by decide) rfl

/-- C5 witness: a single credential under an unexpired cooldown; the next
`get` still returns a credential of the pool. -/
theorem get_failopen_witness :
    ∃ c, (TokenPool.get 1800 10
        ⟨["a"], 0, 3, fun _ => some 1, fun _ => some 0, fun _ => some 5⟩).1 = some c ∧
      c ∈ (⟨["a"], 0, 3, fun _ => some 1, fun _ => some 0, fun _ => some 5⟩ : TokenPool).tokens :=
  ((get_failopen 1800 10
    ⟨["a"], 0, 3, fun _ => some 1, fun _ => some 0, fun _ => some 5⟩ (by decide)).2
    (fun t _ => ⟨5, rfl, by decide⟩)).1

/-- C6 witness: same contents in another order with a duplicate; the
failure counter of a retained credential is preserved. -/
theorem update_same_contents_witness :
    (((⟨["a", "b"], 5, 3, fun t => if t = "a" then some 2 else some 0,
        fun _ => some 1, fun _ => none⟩ : TokenPool).update ["b", "a", "b"]).failures
      "a").getD 0 =
    (((⟨["a", "b"], 5, 3, fun t => if t = "a" then some 2 else some 0,
        fun _ => some 1, fun _ => none⟩ : TokenPool).failures) "a").getD 0 :=
  ((update_same_contents
    ⟨["a", "b"], 5, 3, fun t => if t = "a" then some 2 else some 0,
      fun _ => some 1, fun _ => none⟩
    ["b", "a", "b"] (fun t => by simp; tauto) (by decide)).2.2 "a" (by decide)).1

/-- C10 witness: constructed with threshold 0, one failure disables. -/
theorem init_threshold_clamp_witness :
    (TokenPool.markFailure 5 (TokenPool.init ["a"] 0) "a").disabled "a" = some 5 :=
  (init_threshold_clamp ["a"] 0).2 (by decide) "a" 5 (by decide)

end ZaiApi
